import Mathlib

/-!
Verification of the chunked AV1 re-encoder core (scene validation, TQ search,
interpolators, metric reduction, completion recording) against its
natural-language specification.  The Rust source is shallowly embedded:
`f64` values are modelled as exact rationals (`ℚ`), machine integers as `ℕ`
with explicit `% 2^32` where u32 overflow matters, fallible paths as
`Option`, and panics as explicit outcome constructors.  The one numeric
operation with no rational counterpart, `f64::sqrt` (used only inside
PCHIP's τ-limiter), is threaded as an explicit function parameter `rsqrt`;
no claim depends on its values.
-/

namespace Xav

/-! ## Numeric primitives (tq.rs) -/

/-- Model of `f64::round`: round half away from zero. -/
def roundHalfAway (q : ℚ) : ℤ :=
  if q < 0 then -⌊-q + 1/2⌋ else ⌊q + 1/2⌋

/-- From tq.rs: `fn round_crf(crf) = (crf * 4.0).round() / 4.0`. -/
def round_crf (crf : ℚ) : ℚ :=
  (roundHalfAway (crf * 4) : ℚ) / 4

/-- Model of `f64::midpoint(a, b)` on finite values: `(a + b) / 2`. -/
def fmidpoint (a b : ℚ) : ℚ :=
  (a + b) / 2

/-- From tq.rs: `fn binary_search(min, max) = round_crf(f64::midpoint(min, max))`. -/
def binary_search (mn mx : ℚ) : ℚ :=
  round_crf (fmidpoint mn mx)

/-- Model of `f64::clamp(x, mn, mx)` on the non-panicking path `mn ≤ mx`:
`if x < mn { mn } else if x > mx { mx } else { x }`.  The panic when
`mn > mx` is modelled separately in the search loop (`TQOutcome.clampAbort`). -/
def rclamp (x mn mx : ℚ) : ℚ :=
  if x < mn then mn else if x > mx then mx else x

/-! ## String parsing (model of `str::split('-')` and `f64::from_str`
on plain decimal literals, the only shape the range strings use) -/

/-- Model of `str::split(sep)` on a character list. -/
def splitOnChar (sep : Char) : List Char → List (List Char)
  | [] => [[]]
  | c :: rest =>
    let r := splitOnChar sep rest
    if c = sep then [] :: r
    else
      match r with
      | [] => [[c]]
      | g :: gs => (c :: g) :: gs

/-- Value of a digit string, most significant first. -/
def digitsVal (l : List Char) : ℕ :=
  l.foldl (fun acc c => 10 * acc + (c.toNat - 48)) 0

/-- Model of `f64::from_str` restricted to plain decimal literals
`[+|-] digits [. digits]` (with at least one digit), parsed exactly into `ℚ`.
Exponent/`inf`/`nan` forms, which never occur in the range strings this
program parses, are rejected. -/
def parseDecCore (l : List Char) : Option ℚ :=
  let signed : ℚ × List Char :=
    match l with
    | '-' :: rest => (-1, rest)
    | '+' :: rest => (1, rest)
    | rest => (1, rest)
  let sgn := signed.1
  let body := signed.2
  let ip := body.takeWhile Char.isDigit
  let rest := body.dropWhile Char.isDigit
  match rest with
  | [] => if ip.isEmpty then none else some (sgn * digitsVal ip)
  | '.' :: fp =>
    if fp.all Char.isDigit ∧ ¬(ip.isEmpty ∧ fp.isEmpty) then
      some (sgn * ((digitsVal ip : ℚ) + (digitsVal fp : ℚ) / (10 : ℚ) ^ fp.length))
    else none
  | _ => none

/-- From tq.rs / svt.rs: `range.split('-').filter_map(|s| s.parse().ok()).collect()`. -/
def range_parts (s : String) : List ℚ :=
  (splitOnChar '-' s.toList).filterMap parseDecCore

/-! ## TQConfig (tq.rs) -/

structure TQConfig where
  target : ℚ
  tolerance : ℚ
  min_crf : ℚ
  max_crf : ℚ
deriving DecidableEq

/-- From tq.rs, `TQConfig::new`: parse both ranges and take
`target = midpoint(tq[0], tq[1])`, `tolerance = (tq[1] - tq[0]) / 2`,
`min_crf = qp[0]`, `max_crf = qp[1]`.  The source indexes `parts[0]`/`parts[1]`
and panics when fewer than two components parse; that panic is modelled
as `none`. -/
def TQConfig.new (tq_range qp_range : String) : Option TQConfig :=
  match range_parts tq_range, range_parts qp_range with
  | t0 :: t1 :: _, q0 :: q1 :: _ =>
    some ⟨fmidpoint t0 t1, (t1 - t0) / 2, q0, q1⟩
  | _, _ => none

/-- From tq.rs: `fn in_range(score) = (score - target).abs() <= tolerance`. -/
def TQConfig.in_range (c : TQConfig) (score : ℚ) : Bool :=
  decide (|score - c.target| ≤ c.tolerance)

/-- From tq.rs: `fn in_range_reversed(score) = (target - score).abs() <= tolerance`. -/
def TQConfig.in_range_reversed (c : TQConfig) (score : ℚ) : Bool :=
  decide (|c.target - score| ≤ c.tolerance)

/-! ## Interpolators (interp.rs) -/

/-- From interp.rs, `lerp`: `None` iff `x[1] <= x[0]`, otherwise linear
interpolation `y0 + t * (y1 - y0)` with `t = (xi - x0) / (x1 - x0)`.
The source performs no domain check on `xi`. -/
def lerp (x0 x1 y0 y1 xi : ℚ) : Option ℚ :=
  if x1 ≤ x0 then none
  else
    let t := (xi - x0) / (x1 - x0)
    some (t * (y1 - y0) + y0)

/-- From interp.rs, `pchip` over 4 points.  `rsqrt` stands in for `f64::sqrt`
inside the τ-limiter.  The source checks strict monotonicity of `x` but,
unlike `natural_cubic` and `akima`, performs no domain check on `xi`. -/
def pchip (rsqrt : ℚ → ℚ) (x0 x1 x2 x3 y0 y1 y2 y3 xi : ℚ) : Option ℚ :=
  if x1 ≤ x0 ∨ x2 ≤ x1 ∨ x3 ≤ x2 then none
  else
    let k : ℕ :=
      if x0 ≤ xi ∧ xi ≤ x1 then 0
      else if x1 ≤ xi ∧ xi ≤ x2 then 1
      else if x2 ≤ xi ∧ xi ≤ x3 then 2
      else 0
    let s0 := (y1 - y0) / (x1 - x0)
    let s1 := (y2 - y1) / (x2 - x1)
    let s2 := (y3 - y2) / (x3 - x2)
    let d0 := s0
    let d1 :=
      if s0 * s1 ≤ 0 then 0
      else
        let w1 := 2 * (x2 - x1) + (x1 - x0)
        let w2 := 2 * (x1 - x0) + (x2 - x1)
        (w1 + w2) / (w1 / s0 + w2 / s1)
    let d2 :=
      if s1 * s2 ≤ 0 then 0
      else
        let w1 := 2 * (x3 - x2) + (x2 - x1)
        let w2 := 2 * (x2 - x1) + (x3 - x2)
        (w1 + w2) / (w1 / s1 + w2 / s2)
    let d3 := s2
    -- τ-limiting pass, segment 0 (mutates d0, d1)
    let p0 : ℚ × ℚ :=
      if s0 = 0 then (0, 0)
      else
        let alpha := d0 / s0
        let beta := d1 / s0
        let tau := alpha * alpha + beta * beta
        if tau > 9 then
          let scale := 3 / rsqrt tau
          (scale * alpha * s0, scale * beta * s0)
        else (d0, d1)
    let d0 := p0.1
    let d1 := p0.2
    -- τ-limiting pass, segment 1 (mutates d1, d2)
    let p1 : ℚ × ℚ :=
      if s1 = 0 then (0, 0)
      else
        let alpha := d1 / s1
        let beta := d2 / s1
        let tau := alpha * alpha + beta * beta
        if tau > 9 then
          let scale := 3 / rsqrt tau
          (scale * alpha * s1, scale * beta * s1)
        else (d1, d2)
    let d1 := p1.1
    let d2 := p1.2
    -- τ-limiting pass, segment 2 (mutates d2, d3)
    let p2 : ℚ × ℚ :=
      if s2 = 0 then (0, 0)
      else
        let alpha := d2 / s2
        let beta := d3 / s2
        let tau := alpha * alpha + beta * beta
        if tau > 9 then
          let scale := 3 / rsqrt tau
          (scale * alpha * s2, scale * beta * s2)
        else (d2, d3)
    let d2 := p2.1
    let d3 := p2.2
    let xk := if k = 0 then x0 else if k = 1 then x1 else x2
    let xk1 := if k = 0 then x1 else if k = 1 then x2 else x3
    let yk := if k = 0 then y0 else if k = 1 then y1 else y2
    let yk1 := if k = 0 then y1 else if k = 1 then y2 else y3
    let dk := if k = 0 then d0 else if k = 1 then d1 else d2
    let dk1 := if k = 0 then d1 else if k = 1 then d2 else d3
    let h := xk1 - xk
    let t := (xi - xk) / h
    let t2 := t * t
    let t3 := t2 * t
    let h00 := 2 * t3 - 3 * t2 + 1
    let h10 := t3 - 2 * t2 + t
    let h01 := -2 * t3 + 3 * t2
    let h11 := t3 - t2
    some (h00 * yk + h10 * h * dk + h11 * h * dk1 + h01 * yk1)

/-- From interp.rs, `akima` over 5 points: `None` on non-monotone `x` or
`xi` outside `[x0, x4]`; otherwise a cubic Hermite evaluation with Akima
slope weights (tie rule averages the neighbouring slopes when the total
weight is below `1e-10`). -/
def akima (x0 x1 x2 x3 x4 y0 y1 y2 y3 y4 xi : ℚ) : Option ℚ :=
  if x1 ≤ x0 ∨ x2 ≤ x1 ∨ x3 ≤ x2 ∨ x4 ≤ x3 then none
  else if xi < x0 ∨ xi > x4 then none
  else
    let k : ℕ :=
      if x0 ≤ xi ∧ xi ≤ x1 then 0
      else if x1 ≤ xi ∧ xi ≤ x2 then 1
      else if x2 ≤ xi ∧ xi ≤ x3 then 2
      else if x3 ≤ xi ∧ xi ≤ x4 then 3
      else 0
    let m1 := (y1 - y0) / (x1 - x0)
    let m2 := (y2 - y1) / (x2 - x1)
    let m3 := (y3 - y2) / (x3 - x2)
    let m4 := (y4 - y3) / (x4 - x3)
    let m0 := 2 * m1 - m2
    let m5 := 2 * m4 - m3
    let tw : ℚ → ℚ → ℚ → ℚ := fun ma mb mc =>
      let w1 := |mc - mb|
      let w2 := |ma - mb|
      if w1 + w2 < 1 / 10 ^ 10 then (ma + mb) / 2
      else (w1 * ma + w2 * mb) / (w1 + w2)
    let t0 := tw m0 m1 m2
    let t1 := tw m1 m2 m3
    let t2 := tw m2 m3 m4
    let t3 := tw m3 m4 m5
    let t4 := m4
    let xk := if k = 0 then x0 else if k = 1 then x1 else if k = 2 then x2 else x3
    let xk1 := if k = 0 then x1 else if k = 1 then x2 else if k = 2 then x3 else x4
    let yk := if k = 0 then y0 else if k = 1 then y1 else if k = 2 then y2 else y3
    let yk1 := if k = 0 then y1 else if k = 1 then y2 else if k = 2 then y3 else y4
    let tk := if k = 0 then t0 else if k = 1 then t1 else if k = 2 then t2 else t3
    let tk1 := if k = 0 then t1 else if k = 1 then t2 else if k = 2 then t3 else t4
    let h := xk1 - xk
    let s := (xi - xk) / h
    let s2 := s * s
    let s3 := s2 * s
    let h00 := 2 * s3 - 3 * s2 + 1
    let h10 := s3 - 2 * s2 + s
    let h01 := -2 * s3 + 3 * s2
    let h11 := s3 - s2
    some (h00 * yk + h10 * h * tk + h11 * h * tk1 + h01 * yk1)

/-- Element access `x[i]` for the cubic-spline arrays (in-bounds at every use). -/
def ncX (x : List ℚ) (i : ℕ) : ℚ :=
  x.getD i 0

/-- Segment widths `h[i] = x[i+1] - x[i]` from `natural_cubic`. -/
def ncH (x : List ℚ) (i : ℕ) : ℚ :=
  ncX x (i + 1) - ncX x i

/-- Subdiagonal of the tridiagonal system set up by `natural_cubic`
(`a[i] = h[i-1]` for interior `i`, `0` elsewhere, per the init values). -/
def ncA (x : List ℚ) (n i : ℕ) : ℚ :=
  if 1 ≤ i ∧ i ≤ n - 2 then ncH x (i - 1) else 0

/-- Diagonal: `b[0] = b[n-1] = 1` (natural boundary), interior
`b[i] = 2 * (h[i-1] + h[i])`, with the untouched init value `2` elsewhere. -/
def ncB (x : List ℚ) (n i : ℕ) : ℚ :=
  if i = 0 ∨ i = n - 1 then 1
  else if 1 ≤ i ∧ i ≤ n - 2 then 2 * (ncH x (i - 1) + ncH x i)
  else 2

/-- Superdiagonal: `c[i] = h[i]` for interior `i`, `0` elsewhere. -/
def ncC (x : List ℚ) (n i : ℕ) : ℚ :=
  if 1 ≤ i ∧ i ≤ n - 2 then ncH x i else 0

/-- Right-hand side: `d[i] = 3*((y[i+1]-y[i])/h[i] - (y[i]-y[i-1])/h[i-1])`
for interior `i`, `0` elsewhere. -/
def ncD (x y : List ℚ) (n i : ℕ) : ℚ :=
  if 1 ≤ i ∧ i ≤ n - 2 then
    3 * ((ncX y (i + 1) - ncX y i) / ncH x i - (ncX y i - ncX y (i - 1)) / ncH x (i - 1))
  else 0

/-- Forward sweep of the Thomas algorithm from `natural_cubic`:
`l[0] = b[0]`, `z[0] = 0`, `l[i] = b[i] - a[i]*c[i-1]/l[i-1]`,
`z[i] = (d[i] - a[i]*z[i-1])/l[i]`; a zero pivot (the source's
`if l[i] == 0.0 return None`) is modelled as `none`. -/
def ncLZ (x y : List ℚ) (n : ℕ) : ℕ → Option (ℚ × ℚ)
  | 0 => if ncB x n 0 = 0 then none else some (ncB x n 0, 0)
  | i + 1 =>
    match ncLZ x y n i with
    | none => none
    | some lz =>
      let li := ncB x n (i + 1) - ncA x n (i + 1) * ncC x n i / lz.1
      if li = 0 then none
      else some (li, (ncD x y n (i + 1) - ncA x n (i + 1) * lz.2) / li)

/-- Pivot `l[i]` (only consulted after the sweep succeeded). -/
def ncL (x y : List ℚ) (n i : ℕ) : ℚ :=
  ((ncLZ x y n i).getD (1, 0)).1

/-- Sweep value `z[i]` (only consulted after the sweep succeeded). -/
def ncZ (x y : List ℚ) (n i : ℕ) : ℚ :=
  ((ncLZ x y n i).getD (1, 0)).2

/-- Back substitution, indexed from the end: `ncM j` is `m[n-1-j]`, with
`m[n-1] = z[n-1]` and `m[i] = z[i] - c[i]*m[i+1]/l[i]`. -/
def ncM (x y : List ℚ) (n : ℕ) : ℕ → ℚ
  | 0 => ncZ x y n (n - 1)
  | j + 1 =>
    ncZ x y n (n - 2 - j) - ncC x n (n - 2 - j) * ncM x y n j / ncL x y n (n - 2 - j)

/-- Second-derivative coefficient `m[i]` of the natural cubic spline. -/
def ncMAt (x y : List ℚ) (n i : ℕ) : ℚ :=
  ncM x y n (n - 1 - i)

/-- From interp.rs, `natural_cubic` over `n ≥ 3` points: guards
(`n < 3`, length mismatch, `xi` outside `[x[0], x[n-1]]`, a non-positive
segment width, a zero pivot) return `none`; otherwise the cubic
`a + b*dx + c*dx² + d*dx³` is evaluated on the located segment `k`
(first segment containing `xi`, defaulting to `0`). -/
def natural_cubic (x y : List ℚ) (xi : ℚ) : Option ℚ :=
  let n := x.length
  if n < 3 ∨ n ≠ y.length ∨ xi < ncX x 0 ∨ xi > ncX x (n - 1) then none
  else if ((List.range (n - 1)).map (ncH x)).any (fun h => decide (h ≤ 0)) then none
  else
    match ncLZ x y n (n - 1) with
    | none => none
    | some _ =>
      let k := ((List.range (n - 1)).find?
        (fun i => decide (ncX x i ≤ xi) && decide (xi ≤ ncX x (i + 1)))).getD 0
      let dx := xi - ncX x k
      let hk := ncH x k
      let aC := ncX y k
      let bC := (ncX y (k + 1) - ncX y k) / hk
        - hk * (2 * ncMAt x y n k + ncMAt x y n (k + 1)) / 3
      let cC := ncMAt x y n k
      let dC := (ncMAt x y n (k + 1) - ncMAt x y n k) / (3 * hk)
      some (aC + bC * dx + cC * dx ^ 2 + dC * dx ^ 3)

/-! ## Probes and the interpolation dispatcher (tq.rs) -/

/-- A probe's CRF and reduced score.  The source also carries the per-frame
score list, which only feeds the end-of-run score accumulator and is not
touched by any claim. -/
structure Probe where
  crf : ℚ
  score : ℚ
deriving DecidableEq

instance : DecidableRel (fun a b : Probe => a.score ≤ b.score) :=
  fun a b => inferInstanceAs (Decidable (a.score ≤ b.score))

/-- From tq.rs, `interpolate_crf`: `sorted.sort_unstable_by(score)` — for
rational scores any comparison sort yields this unique sorted permutation. -/
def sortProbes (probes : List Probe) : List Probe :=
  List.insertionSort (fun a b => a.score ≤ b.score) probes

/-- Score column of the probes sorted by score ascending
(`x` in `interpolate_crf`). -/
def probe_x (probes : List Probe) : List ℚ :=
  (sortProbes probes).map Probe.score

/-- CRF column of the probes sorted by score ascending
(`y` in `interpolate_crf`). -/
def probe_y (probes : List Probe) : List ℚ :=
  (sortProbes probes).map Probe.crf

/-- From tq.rs, `interpolate_crf`: sort probes by score ascending, dispatch
on the round (3: lerp on the 2 lowest, 4: natural cubic on all, 5: PCHIP on
the 4 lowest, 6: Akima on the 5 lowest, each guarded by a minimum probe
count), and snap any result with `round_crf`. -/
def interpolate_crf (rsqrt : ℚ → ℚ) (probes : List Probe) (target : ℚ)
    (round : ℕ) : Option ℚ :=
  let n := (sortProbes probes).length
  let x := probe_x probes
  let y := probe_y probes
  let result : Option ℚ :=
    if round = 3 ∧ 2 ≤ n then
      lerp (ncX x 0) (ncX x 1) (ncX y 0) (ncX y 1) target
    else if round = 4 ∧ 3 ≤ n then
      natural_cubic x y target
    else if round = 5 ∧ 4 ≤ n then
      pchip rsqrt (ncX x 0) (ncX x 1) (ncX x 2) (ncX x 3)
        (ncX y 0) (ncX y 1) (ncX y 2) (ncX y 3) target
    else if round = 6 ∧ 5 ≤ n then
      akima (ncX x 0) (ncX x 1) (ncX x 2) (ncX x 3) (ncX x 4)
        (ncX y 0) (ncX y 1) (ncX y 2) (ncX y 3) (ncX y 4) target
    else none
  result.map round_crf

/-! ## The TQ search loop (tq.rs, `find_target_quality`) -/

/-- Candidate CRF of one round, as computed at the head of the loop body:
bisection for rounds 1, 2 and > 6, otherwise interpolation with bisection
fallback, the whole expression clamped into the current window. -/
def tq_step_crf (rsqrt : ℚ → ℚ) (probes : List Probe) (target : ℚ)
    (round : ℕ) (smin smax : ℚ) : ℚ :=
  rclamp
    (if round ≤ 2 ∨ round > 6 then binary_search smin smax
     else (interpolate_crf rsqrt probes target round).getD (binary_search smin smax))
    smin smax

/-- Window update at the end of a non-accepted round (tq.rs lines 302–312):
under Butteraugli a score above `target + tolerance` lowers `search_max` to
`crf - 0.25` and a score below `target - tolerance` raises `search_min` to
`crf + 0.25`; under the higher-is-better metrics the two cases swap. -/
def update_window (bt : Bool) (cfg : TQConfig) (crf score smin smax : ℚ) : ℚ × ℚ :=
  if bt then
    if score > cfg.target + cfg.tolerance then (smin, crf - 1/4)
    else if score < cfg.target - cfg.tolerance then (crf + 1/4, smax)
    else (smin, smax)
  else
    if score < cfg.target - cfg.tolerance then (smin, crf - 1/4)
    else if score > cfg.target + cfg.tolerance then (crf + 1/4, smax)
    else (smin, smax)

/-- Observable outcome of a TQ search.  `clampAbort` models the
`f64::clamp` panic when `search_min > search_max`; `indexAbort` models the
`probes[0]` / `parts[idx]` index panics. -/
inductive TQOutcome where
  | clampAbort
  | indexAbort
  | accepted (crf score : ℚ) (round : ℕ)
  | fallback (crf score : ℚ)
deriving DecidableEq

/-- Probe minimising `|score - target|`, the head of the source's final
`sort_unstable_by` on the absolute deviation. -/
def bestProbe (target : ℚ) : List Probe → Option Probe
  | [] => none
  | p :: rest =>
    match bestProbe target rest with
    | none => some p
    | some q => some (if |q.score - target| < |p.score - target| then q else p)

/-- Loop-exhaustion path of `find_target_quality`: promote the probe
closest to the target; `probes[0]` on an empty list is the index panic. -/
def fallbackResult (cfg : TQConfig) (probes : List Probe) : TQOutcome :=
  match bestProbe cfg.target probes with
  | none => .indexAbort
  | some p => .fallback p.crf p.score

/-- Acceptance test of one round (tq.rs lines 268–272):
`in_range_reversed` under Butteraugli, `in_range` otherwise. -/
def accept_test (bt : Bool) (cfg : TQConfig) (score : ℚ) : Bool :=
  if bt then cfg.in_range_reversed score else cfg.in_range score

/-- The `for round in 1..=10` loop of `find_target_quality`, with the
probe scorer abstracted as `oracle : crf → score` (encode + measure).
`fuel` counts the rounds still available; the loop is entered with
`fuel = 10`, `round = 1`.  Each iteration: clamp-panic check, candidate
CRF, probe, acceptance test, then window update and the
`search_min > search_max` break. -/
def tq_loop (rsqrt : ℚ → ℚ) (bt : Bool) (cfg : TQConfig) (oracle : ℚ → ℚ) :
    ℕ → ℕ → List Probe → ℚ → ℚ → TQOutcome
  | 0, _, probes, _, _ => fallbackResult cfg probes
  | fuel + 1, round, probes, smin, smax =>
    if smax < smin then .clampAbort
    else
      let crf := tq_step_crf rsqrt probes cfg.target round smin smax
      let score := oracle crf
      let probes' := probes ++ [⟨crf, score⟩]
      if accept_test bt cfg score then
        .accepted crf score round
      else
        let w := update_window bt cfg crf score smin smax
        if w.2 < w.1 then fallbackResult cfg probes'
        else tq_loop rsqrt bt cfg oracle fuel (round + 1) probes' w.1 w.2

/-- From tq.rs, `find_target_quality`: build the `TQConfig` from the two
range strings (index panic on short parses) and run the search from the
window `[min_crf, max_crf]`. -/
def find_target_quality (rsqrt : ℚ → ℚ) (bt : Bool) (oracle : ℚ → ℚ)
    (tq_range qp_range : String) : TQOutcome :=
  match TQConfig.new tq_range qp_range with
  | none => .indexAbort
  | some cfg => tq_loop rsqrt bt cfg oracle 10 1 [] cfg.min_crf cfg.max_crf

/-! ## Metric selection (svt.rs, worker setup in `encode_tq`'s caller) -/

/-- Target derived from the tq range string, as both `use_cvvdp` and
`use_butteraugli` blocks compute it: `f64::midpoint(tq_parts[0], tq_parts[1])`
(index panic on short parses modelled as `none`). -/
def tq_target (tq : String) : Option ℚ :=
  match range_parts tq with
  | t0 :: t1 :: _ => some (fmidpoint t0 t1)
  | _ => none

/-- From svt.rs: `use_cvvdp = target > 8.0 && target <= 10.0`. -/
def use_cvvdp (tq : String) : Option Bool :=
  (tq_target tq).map (fun t => decide (8 < t) && decide (t ≤ 10))

/-- From svt.rs: `use_butteraugli = target < 8.0`. -/
def use_butteraugli (tq : String) : Option Bool :=
  (tq_target tq).map (fun t => decide (t < 8))

inductive Metric where
  | butteraugli
  | cvvdp
  | ssimulacra2
deriving DecidableEq

/-- Which metric kernel `measure_quality` invokes per frame, following its
if-chain: `use_butteraugli` first, then `use_cvvdp`, else SSIMULACRA2. -/
def selected_metric (ucv ubt : Bool) : Metric :=
  if ubt then .butteraugli else if ucv then .cvvdp else .ssimulacra2

/-- Metric selected for a tq range string, combining the two svt.rs flags. -/
def metric_for (tq : String) : Option Metric :=
  match use_cvvdp tq, use_butteraugli tq with
  | some ucv, some ubt => some (selected_metric ucv ubt)
  | _, _ => none

/-! ## Metric reduction (tq.rs, tail of `measure_quality`) -/

/-- Arithmetic mean `scores.iter().sum() / scores.len()`. -/
def listMean (scores : List ℚ) : ℚ :=
  scores.sum / (scores.length : ℚ)

instance : DecidableRel (fun a b : ℚ => a ≤ b) :=
  fun a b => inferInstanceAs (Decidable (a ≤ b))

instance : DecidableRel (fun a b : ℚ => b ≤ a) :=
  fun a b => inferInstanceAs (Decidable (b ≤ a))

/-- Ascending `sort_unstable_by(partial_cmp)` on rational scores. -/
def sortAsc (scores : List ℚ) : List ℚ :=
  List.insertionSort (fun a b => a ≤ b) scores

/-- Descending `sort_unstable_by(|a, b| b.partial_cmp(a))`. -/
def sortDesc (scores : List ℚ) : List ℚ :=
  List.insertionSort (fun a b => b ≤ a) scores

/-- Model of `metric_mode.strip_prefix('p')` on the character list. -/
def stripP (metric_mode : String) : Option (List Char) :=
  match metric_mode.toList with
  | 'p' :: rest => some rest
  | _ => none

/-- Result domain of `f64::from_str`, as far as the percentile computation
observes it: a finite value (exact rational, the usual model of a finite
`f64` here), a signed infinity, or NaN. -/
inductive FParse where
  | finite (q : ℚ)
  | inf (neg : Bool)
  | nan
deriving DecidableEq

/-- Model of `str::parse::<f64>()` on an arbitrary string, following the
grammar documented for Rust's `f64::from_str`:
`Float ::= Sign? ('inf' | 'infinity' | 'nan' | Number)` with the keywords
case-insensitive, `Number ::= (Digit+ | Digit+ '.' Digit* | '.' Digit+) Exp?`,
`Exp ::= ('e' | 'E') Sign? Digit+`.  Finite forms are parsed exactly into
`ℚ` (`mantissa · 10^±exp`); the sign of a `nan` literal is dropped, as the
NaN value carries none that the percentile computation observes.  Anything
outside the grammar is a parse error (`none`). -/
def parse_f64 (l : List Char) : Option FParse :=
  let signed : Bool × List Char :=
    match l with
    | '-' :: rest => (true, rest)
    | '+' :: rest => (false, rest)
    | rest => (false, rest)
  let neg := signed.1
  let body := signed.2
  let lower := body.map Char.toLower
  if lower = ['i', 'n', 'f'] ∨ lower = ['i', 'n', 'f', 'i', 'n', 'i', 't', 'y'] then
    some (.inf neg)
  else if lower = ['n', 'a', 'n'] then some .nan
  else
    let ip := body.takeWhile Char.isDigit
    let rest1 := body.dropWhile Char.isDigit
    let mant : Option (ℚ × List Char) :=
      match rest1 with
      | '.' :: rest2 =>
        let fp := rest2.takeWhile Char.isDigit
        let rest3 := rest2.dropWhile Char.isDigit
        if ip.isEmpty ∧ fp.isEmpty then none
        else some ((digitsVal ip : ℚ) + (digitsVal fp : ℚ) / (10 : ℚ) ^ fp.length, rest3)
      | r => if ip.isEmpty then none else some ((digitsVal ip : ℚ), r)
    match mant with
    | none => none
    | some mr =>
      let m := mr.1
      match mr.2 with
      | [] => some (.finite (if neg then -m else m))
      | e :: erest =>
        if e = 'e' ∨ e = 'E' then
          let esigned : Bool × List Char :=
            match erest with
            | '-' :: r => (true, r)
            | '+' :: r => (false, r)
            | r => (false, r)
          if esigned.2.isEmpty ∨ ¬esigned.2.all Char.isDigit then none
          else
            let ex := digitsVal esigned.2
            let v := if esigned.1 then m / (10 : ℚ) ^ ex else m * (10 : ℚ) ^ ex
            some (.finite (if neg then -v else v))
        else none

/-- The cutoff index
`((scores.len() as f64 * percentile / 100.0).ceil() as usize).min(scores.len())`
of the percentile reduction, by case on the parsed percentile.  For a
finite percentile the `as usize` cast saturates negatives to 0
(`Int.toNat`).  For `+inf` the product is `+inf` (ceil `+inf`, cast
saturating to `usize::MAX`, so the `min` yields `len`) unless `len = 0`,
where `0.0 * inf = NaN` casts to 0 (equal to `len` there as well); for
`-inf` the cast saturates to 0; for `NaN` (also from `len = 0`) the cast
yields 0. -/
def cutoff_idx (p : FParse) (len : ℕ) : ℕ :=
  match p with
  | .finite q => min (Int.toNat ⌈(len : ℚ) * q / 100⌉) len
  | .inf neg => if len = 0 then 0 else if neg then 0 else len
  | .nan => 0

/-- From tq.rs, the reduction at the end of `measure_quality`: under CVVDP
the last score (`scores.last().unwrap_or(0.0)`); else `"mean"` → mean; else
a `'p'`-prefixed mode parses its suffix as an `f64`
(`percentile_str.parse().unwrap_or(15.0)`), sorts worst-first (descending
for Butteraugli, ascending otherwise), takes the first
`cutoff_idx` scores and returns their mean; any other mode → mean.  A
`0/0` (Rust `NaN`, reachable only with an empty score list or a
degenerate percentile) is represented by `ℚ`'s convention `q / 0 = 0`. -/
def measure_result (ucv ubt : Bool) (metric_mode : String) (scores : List ℚ) : ℚ :=
  if ucv then scores.getLast?.getD 0
  else if metric_mode = "mean" then listMean scores
  else
    match stripP metric_mode with
    | some ps =>
      let percentile := (parse_f64 ps).getD (.finite 15)
      let sorted := if ubt then sortDesc scores else sortAsc scores
      let cutoff := cutoff_idx percentile scores.length
      (sorted.take cutoff).sum / (cutoff : ℚ)
    | none => listMean scores

/-! ## Scenes (chunk.rs) -/

structure Scene where
  s_frame : ℕ
  e_frame : ℕ
deriving DecidableEq

/-- Scene-list construction loop of `load_scenes` over an already-sorted
index list: `e = s_frames.get(i+1).unwrap_or(t_frames)`. -/
def scenesFromSorted : List ℕ → ℕ → List Scene
  | [], _ => []
  | [s], t => [⟨s, t⟩]
  | s :: s' :: rest, t => ⟨s, s'⟩ :: scenesFromSorted (s' :: rest) t

/-- From chunk.rs, `load_scenes`, applied to the already-parsed frame
indices: `s_frames.sort_unstable()` (no deduplication in the source)
followed by the construction loop. -/
def load_scenes (s_frames : List ℕ) (t_frames : ℕ) : List Scene :=
  scenesFromSorted (List.insertionSort (fun a b => a ≤ b) s_frames) t_frames

/-- Per-scene check loop of `validate_scenes`, with running index `i` and
the full list length `total`: error (false) when a non-last scene is
shorter than `min_len` or any scene is longer than `max_len`
(`len = e_frame.saturating_sub(s_frame)`). -/
def validateScenesGo (min_len max_len total : ℕ) : ℕ → List Scene → Bool
  | _, [] => true
  | i, sc :: rest =>
    let len := sc.e_frame - sc.s_frame
    let is_last := i = total - 1
    if (!(decide is_last) && decide (len < min_len)) || decide (len > max_len) then false
    else validateScenesGo min_len max_len total (i + 1) rest

/-- From chunk.rs, `validate_scenes`: `min_len = (fps_num + fps_den/2) / fps_den`
and `max_len = ((fps_num * 10 + fps_den/2) / fps_den).min(300)` in u32
arithmetic (wrapping additions/multiplication modelled with `% 2^32`),
then the per-scene loop. -/
def validate_scenes (scenes : List Scene) (fps_num fps_den : ℕ) : Bool :=
  let min_len := ((fps_num + fps_den / 2) % 2 ^ 32) / fps_den
  let max_len := min ((((fps_num * 10) % 2 ^ 32 + fps_den / 2) % 2 ^ 32) / fps_den) 300
  validateScenesGo min_len max_len scenes.length 0 scenes

/-! ## Completion recording (svt.rs, tail of `proc_chunk`) -/

structure ChunkComp where
  idx : ℕ
  frames : ℕ
  size : ℕ
deriving DecidableEq

/-- From svt.rs, `proc_chunk` after a successful encoder exit:
`fs::metadata(&output).ok().map(|m| ChunkComp { idx, frames, size: m.len() })`.
The filesystem result is abstracted as `meta : Option ℕ` — `none` when the
output file does not exist, `some len` when it exists with `len` bytes. -/
def proc_chunk_completion (idx frame_count : ℕ) (meta : Option ℕ) : Option ChunkComp :=
  meta.map (fun len => ⟨idx, frame_count, len⟩)

/-! ## Helper lemmas -/

attribute [local semireducible] Rat.mul Rat.add Rat.sub Rat.inv

theorem fallbackResult_ne_accepted (cfg : TQConfig) (probes : List Probe)
    (crf s : ℚ) (r : ℕ) : fallbackResult cfg probes ≠ .accepted crf s r := by
  unfold fallbackResult
  cases bestProbe cfg.target probes <;> simp

theorem fallbackResult_ne_clampAbort (cfg : TQConfig) (probes : List Probe) :
    fallbackResult cfg probes ≠ .clampAbort := by
  unfold fallbackResult
  cases bestProbe cfg.target probes <;> simp

theorem in_range_eq_abs (cfg : TQConfig) (s : ℚ) :
    cfg.in_range s = decide (|s - cfg.target| ≤ cfg.tolerance) := rfl

theorem in_range_reversed_eq_in_range (cfg : TQConfig) (s : ℚ) :
    cfg.in_range_reversed s = cfg.in_range s := by
  unfold TQConfig.in_range TQConfig.in_range_reversed
  rw [abs_sub_comm]

theorem accept_test_abs (bt : Bool) (cfg : TQConfig) (s : ℚ)
    (h : accept_test bt cfg s = true) : |s - cfg.target| ≤ cfg.tolerance := by
  have hr : cfg.in_range s = true := by
    cases bt with
    | false => exact h
    | true => rw [← in_range_reversed_eq_in_range]; exact h
  rw [in_range_eq_abs] at hr
  exact of_decide_eq_true hr

theorem tq_loop_accepted_in_range (rsqrt : ℚ → ℚ) (bt : Bool) (cfg : TQConfig)
    (oracle : ℚ → ℚ) :
    ∀ (fuel round : ℕ) (probes : List Probe) (smin smax crf s : ℚ) (r : ℕ),
      tq_loop rsqrt bt cfg oracle fuel round probes smin smax = .accepted crf s r →
      |s - cfg.target| ≤ cfg.tolerance := by
  intro fuel
  induction fuel with
  | zero =>
    intro round probes smin smax crf s r h
    exact absurd h (fallbackResult_ne_accepted cfg probes crf s r)
  | succ n ih =>
    intro round probes smin smax crf s r h
    rw [tq_loop] at h
    by_cases hlt : smax < smin
    · rw [if_pos hlt] at h
      exact absurd h (by simp)
    · rw [if_neg hlt] at h
      simp only [] at h
      by_cases hacc :
          accept_test bt cfg (oracle (tq_step_crf rsqrt probes cfg.target round smin smax)) = true
      · rw [if_pos hacc] at h
        rw [show s = oracle (tq_step_crf rsqrt probes cfg.target round smin smax) from
          ((TQOutcome.accepted.injEq _ _ _ _ _ _).mp h).2.1.symm]
        exact accept_test_abs bt cfg _ hacc
      · rw [if_neg hacc] at h
        by_cases hw : (update_window bt cfg (tq_step_crf rsqrt probes cfg.target round smin smax)
            (oracle (tq_step_crf rsqrt probes cfg.target round smin smax)) smin smax).2 <
            (update_window bt cfg (tq_step_crf rsqrt probes cfg.target round smin smax)
            (oracle (tq_step_crf rsqrt probes cfg.target round smin smax)) smin smax).1
        · rw [if_pos hw] at h
          exact absurd h (fallbackResult_ne_accepted cfg _ crf s r)
        · rw [if_neg hw] at h
          exact ih _ _ _ _ crf s r h

theorem tq_loop_ne_clampAbort (rsqrt : ℚ → ℚ) (bt : Bool) (cfg : TQConfig)
    (oracle : ℚ → ℚ) :
    ∀ (fuel round : ℕ) (probes : List Probe) (smin smax : ℚ), smin ≤ smax →
      tq_loop rsqrt bt cfg oracle fuel round probes smin smax ≠ .clampAbort := by
  intro fuel
  induction fuel with
  | zero =>
    intro round probes smin smax _
    exact fallbackResult_ne_clampAbort cfg probes
  | succ n ih =>
    intro round probes smin smax hle
    rw [tq_loop]
    rw [if_neg (not_lt.mpr hle)]
    simp only []
    by_cases hacc :
        accept_test bt cfg (oracle (tq_step_crf rsqrt probes cfg.target round smin smax)) = true
    · rw [if_pos hacc]
      simp
    · rw [if_neg hacc]
      by_cases hw : (update_window bt cfg (tq_step_crf rsqrt probes cfg.target round smin smax)
          (oracle (tq_step_crf rsqrt probes cfg.target round smin smax)) smin smax).2 <
          (update_window bt cfg (tq_step_crf rsqrt probes cfg.target round smin smax)
          (oracle (tq_step_crf rsqrt probes cfg.target round smin smax)) smin smax).1
      · rw [if_pos hw]
        exact fallbackResult_ne_clampAbort cfg _
      · rw [if_neg hw]
        exact ih _ _ _ _ (le_of_not_lt hw)

/-! ## Claim theorems -/

/-- C1: every TQ search (`find_target_quality`) that terminates with
acceptance accepts a probe whose score `s` satisfies
`|s - target| ≤ tolerance`, where `target = (LO+HI)/2` and
`tolerance = (HI-LO)/2` come from the tq range string; and the acceptance
test is literally the same condition under both metric directions
(`in_range_reversed = in_range`). -/
theorem C1_accepted_within_tolerance :
    (∀ (rsqrt : ℚ → ℚ) (bt : Bool) (oracle : ℚ → ℚ) (tq qp : String)
      (cfg : TQConfig) (crf s : ℚ) (r : ℕ),
      TQConfig.new tq qp = some cfg →
      find_target_quality rsqrt bt oracle tq qp = .accepted crf s r →
      |s - cfg.target| ≤ cfg.tolerance) ∧
    (∀ (cfg : TQConfig) (s : ℚ), cfg.in_range_reversed s = cfg.in_range s) := by
  constructor
  · intro rsqrt bt oracle tq qp cfg crf s r hcfg h
    unfold find_target_quality at h
    rw [hcfg] at h
    exact tq_loop_accepted_in_range rsqrt bt cfg oracle 10 1 [] _ _ crf s r h
  · exact in_range_reversed_eq_in_range

/-- Witness for C1: the SSIMULACRA2 run with tq "74-76", qp "12-44" and a
constant oracle score of 75 accepts CRF 28 at round 1, and its score is
within tolerance of the target 75. -/
theorem C1_witness : |(75 : ℚ) - 75| ≤ 1 :=
  C1_accepted_within_tolerance.1 (fun q => q) false (fun _ => 75) "74-76" "12-44"
    ⟨75, 1, 12, 44⟩ 28 75 1 (by decide) (by decide)

/-- C10: under the precondition `min_crf ≤ max_crf` from the parsed qp
range, the TQ search loop never reaches `f64::clamp` with
`search_min > search_max` — whenever a window update crosses the bounds the
loop breaks first — so the clamp panic (`TQOutcome.clampAbort`) is
unreachable. -/
theorem C10_clamp_never_panics :
    ∀ (rsqrt : ℚ → ℚ) (bt : Bool) (oracle : ℚ → ℚ) (tq qp : String)
      (cfg : TQConfig),
      TQConfig.new tq qp = some cfg →
      cfg.min_crf ≤ cfg.max_crf →
      find_target_quality rsqrt bt oracle tq qp ≠ .clampAbort := by
  intro rsqrt bt oracle tq qp cfg hcfg hle
  unfold find_target_quality
  rw [hcfg]
  exact tq_loop_ne_clampAbort rsqrt bt cfg oracle 10 1 [] _ _ hle

/-- Witness for C10 at the concrete ranges "74-76" / "12-44" (so
`min_crf = 12 ≤ 44 = max_crf`) and a constant oracle. -/
theorem C10_witness :
    find_target_quality (fun q => q) false (fun _ => 75) "74-76" "12-44"
      ≠ .clampAbort :=
  C10_clamp_never_panics (fun q => q) false (fun _ => 75) "74-76" "12-44"
    ⟨75, 1, 12, 44⟩ (by decide) (by decide)

/-- C2 (amended): the metric is selected once from `target = (LO+HI)/2` of
the tq range; `target < 8` selects Butteraugli, `8 < target ≤ 10` selects
CVVDP, and `target = 8` or `target > 10` selects SSIMULACRA2 — the CVVDP
test in the source is strict (`target > 8.0`), so the boundary `target = 8`
falls to SSIMULACRA2. -/
theorem C2_metric_selection :
    ∀ (tq : String) (t : ℚ), tq_target tq = some t →
      (t < 8 → metric_for tq = some .butteraugli) ∧
      (8 < t ∧ t ≤ 10 → metric_for tq = some .cvvdp) ∧
      (t = 8 ∨ 10 < t → metric_for tq = some .ssimulacra2) := by
  intro tq t ht
  unfold metric_for use_cvvdp use_butteraugli
  rw [ht]
  simp only [Option.map_some']
  refine ⟨fun hlt => ?_, fun hcv => ?_, fun hss => ?_⟩
  · simp [selected_metric, hlt]
  · have h1 : ¬t < 8 := not_lt.mpr (le_of_lt hcv.1)
    simp [selected_metric, h1, hcv.1, hcv.2]
  · rcases hss with h8 | h10
    · subst h8
      simp [selected_metric]
    · have h1 : ¬t < 8 := not_lt.mpr (le_trans (by norm_num) (le_of_lt h10))
      have h2 : ¬t ≤ 10 := not_le.mpr h10
      simp [selected_metric, h1, h2]

/-- Counterexample for C2 as frozen: for tq range "6-10" the target is
exactly 8, and the selected metric is SSIMULACRA2, not CVVDP as the claim's
boundary case asserts. -/
theorem C2_counterexample :
    tq_target "6-10" = some 8 ∧
    metric_for "6-10" = some .ssimulacra2 ∧
    Metric.ssimulacra2 ≠ Metric.cvvdp := by
  refine ⟨by decide, by decide, by decide⟩

/-- Witness for C2 (amended), at ranges hitting all three arms. -/
theorem C2_witness :
    metric_for "1.5-2.0" = some .butteraugli ∧
    metric_for "8.5-9.5" = some .cvvdp ∧
    metric_for "74-76" = some .ssimulacra2 :=
  ⟨(C2_metric_selection "1.5-2.0" (7/4) (by decide)).1 (by norm_num),
   (C2_metric_selection "8.5-9.5" 9 (by decide)).2.1 (by norm_num),
   (C2_metric_selection "74-76" 75 (by decide)).2.2 (Or.inr (by norm_num))⟩

/-- C3 (amended): with nonnegative tolerance the two window-update cases
swap between the directions: a score above `target + tolerance` updates
`search_max := crf - 0.25` under Butteraugli where the higher-is-better
direction would update `search_min := crf + 0.25`, and symmetrically for a
score below `target - tolerance`.  In scenario S4 the first probe (CRF 35,
score 2.6) therefore updates `search_max := 35 - 0.25`, leaving
`search_min` unchanged. -/
theorem C3_window_update_swap :
    ∀ (cfg : TQConfig) (crf score smin smax : ℚ), 0 ≤ cfg.tolerance →
      (score > cfg.target + cfg.tolerance →
        update_window true cfg crf score smin smax = (smin, crf - 1/4) ∧
        update_window false cfg crf score smin smax = (crf + 1/4, smax)) ∧
      (score < cfg.target - cfg.tolerance →
        update_window true cfg crf score smin smax = (crf + 1/4, smax) ∧
        update_window false cfg crf score smin smax = (smin, crf - 1/4)) := by
  intro cfg crf score smin smax htol
  constructor
  · intro hhi
    have hnlo : ¬score < cfg.target - cfg.tolerance := by
      push_neg
      linarith
    constructor
    · simp [update_window, hhi]
    · simp [update_window, hnlo, hhi]
  · intro hlo
    have hnhi : ¬score > cfg.target + cfg.tolerance := by
      push_neg
      linarith
    constructor
    · simp [update_window, hnhi, hlo]
    · simp [update_window, hlo]

/-- Counterexample for C3 as frozen: in scenario S4 (tq "1.5-2.0", qp
"20-50", Butteraugli) the first-round probe CRF is 35 and its score 2.6
exceeds `target + tolerance = 2.0`; the performed update is
`search_max := 35 - 0.25` (window becomes `(20, 34.75)`), not
`search_min := 35 + 0.25`. -/
theorem C3_counterexample :
    TQConfig.new "1.5-2.0" "20-50" = some ⟨7/4, 1/4, 20, 50⟩ ∧
    binary_search 20 50 = 35 ∧
    (13/5 : ℚ) > 7/4 + 1/4 ∧
    update_window true ⟨7/4, 1/4, 20, 50⟩ 35 (13/5) 20 50 = (20, 139/4) ∧
    update_window true ⟨7/4, 1/4, 20, 50⟩ 35 (13/5) 20 50 ≠ (35 + 1/4, 50) := by
  refine ⟨by decide, by decide, by decide, by decide, by decide⟩

/-- Witness for C3 (amended) at the S4 configuration. -/
theorem C3_witness :
    update_window true ⟨7/4, 1/4, 20, 50⟩ 35 (13/5) 20 50 = (20, 35 - 1/4) ∧
    update_window false ⟨7/4, 1/4, 20, 50⟩ 35 (13/5) 20 50 = (35 + 1/4, 50) :=
  (C3_window_update_swap ⟨7/4, 1/4, 20, 50⟩ 35 (13/5) 20 50 (by decide)).1
    (by decide)

/-- C7 (amended): `proc_chunk` records a `ChunkComp` if and only if
`fs::metadata` on `encode/<idx:04>.ivf` succeeds, i.e. the output file
exists; the recorded size is the file's size, which the source does not
require to be non-zero. -/
theorem C7_completion_iff_exists :
    ∀ (idx fc : ℕ) (meta : Option ℕ),
      ((proc_chunk_completion idx fc meta).isSome ↔ meta.isSome) ∧
      (∀ len, meta = some len →
        proc_chunk_completion idx fc meta = some ⟨idx, fc, len⟩) := by
  intro idx fc meta
  cases meta <;> simp [proc_chunk_completion]

/-- Counterexample for C7 as frozen: with the output file existing but
empty (metadata length 0), a completion is still recorded — its size field
is 0, refuting "a completion is recorded only if the output IVF is
non-empty". -/
theorem C7_counterexample :
    proc_chunk_completion 3 100 (some 0) = some ⟨3, 100, 0⟩ ∧
    ¬0 < (⟨3, 100, 0⟩ : ChunkComp).size := by
  refine ⟨by decide, by decide⟩

/-- Witness for C7 (amended) at a concrete existing file of 1024 bytes. -/
theorem C7_witness :
    proc_chunk_completion 5 60 (some 1024) = some ⟨5, 60, 1024⟩ :=
  (C7_completion_iff_exists 5 60 (some 1024)).2 1024 rfl

theorem scenesFromSorted_strict (t : ℕ) :
    ∀ (l : List ℕ), l.Pairwise (· < ·) → (∀ x ∈ l, x < t) →
      ∀ sc ∈ scenesFromSorted l t, sc.s_frame < sc.e_frame := by
  intro l
  induction l with
  | nil =>
    intro _ _ sc hsc
    simp [scenesFromSorted] at hsc
  | cons s rest ih =>
    intro hp hmem sc hsc
    cases rest with
    | nil =>
      simp [scenesFromSorted] at hsc
      subst hsc
      simpa using hmem s (by simp)
    | cons s' rest' =>
      rw [scenesFromSorted] at hsc
      rcases List.mem_cons.mp hsc with h | h
      · subst h
        simpa using (List.pairwise_cons.mp hp).1 s' (by simp)
      · exact ih (List.pairwise_cons.mp hp).2
          (fun x hx => hmem x (List.mem_cons_of_mem _ hx)) sc h

/-- C6 (amended): `load_scenes` sorts the parsed frame indices ascending
but does not deduplicate them; when the listed indices are pairwise
distinct and all below the total frame count, every produced `Scene`
satisfies `e_frame > s_frame`.  (With a duplicated index the source emits a
degenerate scene with `e_frame = s_frame`; see the counterexample.) -/
theorem C6_load_scenes_strict :
    ∀ (s_frames : List ℕ) (t_frames : ℕ), s_frames.Nodup →
      (∀ x ∈ s_frames, x < t_frames) →
      ∀ sc ∈ load_scenes s_frames t_frames, sc.s_frame < sc.e_frame := by
  intro sf t hnd hmem sc hsc
  unfold load_scenes at hsc
  have hperm := List.perm_insertionSort (fun a b : ℕ => a ≤ b) sf
  have hsorted : (List.insertionSort (fun a b : ℕ => a ≤ b) sf).Pairwise
      (fun a b : ℕ => a ≤ b) := List.sorted_insertionSort _ sf
  have hnd' : (List.insertionSort (fun a b : ℕ => a ≤ b) sf).Nodup :=
    hperm.nodup_iff.mpr hnd
  have hpl : (List.insertionSort (fun a b : ℕ => a ≤ b) sf).Pairwise (· < ·) :=
    (hsorted.and hnd').imp (fun h => lt_of_le_of_ne h.1 h.2)
  exact scenesFromSorted_strict t _ hpl
    (fun x hx => hmem x (hperm.mem_iff.mp hx)) sc hsc

/-- Counterexample for C6 as frozen: the duplicated index list `[5, 5]`
with total frame count 10 (all indices below 10) is not deduplicated by
`load_scenes`; the first produced scene is `⟨5, 5⟩`, violating
`end > start`. -/
theorem C6_counterexample :
    ([5, 5].all fun s => decide (s < 10)) = true ∧
    load_scenes [5, 5] 10 = [⟨5, 5⟩, ⟨5, 10⟩] ∧
    ¬(Scene.s_frame ⟨5, 5⟩ < Scene.e_frame ⟨5, 5⟩) := by
  refine ⟨by decide, by decide, by decide⟩

/-- Witness for C6 (amended) on the distinct index list `[0, 48, 120]`
with 200 total frames: the first produced scene `⟨0, 48⟩` is strict. -/
theorem C6_witness : (0 : ℕ) < 48 :=
  C6_load_scenes_strict [0, 48, 120] 200 (by decide) (by decide)
    ⟨0, 48⟩ (by decide)

theorem validateScenesGo_iff (min_len max_len : ℕ) :
    ∀ (l : List Scene) (i total : ℕ), total = i + l.length →
      (validateScenesGo min_len max_len total i l = true ↔
        ∀ (j : ℕ) (sc : Scene), l.get? j = some sc →
          (j + 1 < l.length → min_len ≤ sc.e_frame - sc.s_frame) ∧
          sc.e_frame - sc.s_frame ≤ max_len) := by
  intro l
  induction l with
  | nil =>
    intro i total _
    simp [validateScenesGo]
  | cons sc rest ih =>
    intro i total htot
    rw [validateScenesGo]
    have hlast : (i = total - 1) ↔ rest.length = 0 := by
      simp only [List.length_cons] at htot
      omega
    by_cases hbad : ((!decide (i = total - 1) &&
        decide (sc.e_frame - sc.s_frame < min_len)) ||
        decide (sc.e_frame - sc.s_frame > max_len)) = true
    · rw [if_pos hbad]
      simp only [Bool.or_eq_true, Bool.and_eq_true, Bool.not_eq_eq_eq_not,
        Bool.not_true, decide_eq_false_iff_not, decide_eq_true_eq] at hbad
      constructor
      · intro h
        exact absurd h (by simp)
      · intro h
        have h0 := h 0 sc (by simp)
        rcases hbad with ⟨hnl, hlt⟩ | hgt
        · have hj : 0 + 1 < (sc :: rest).length := by
            simp only [List.length_cons]
            have : rest.length ≠ 0 := fun hz => hnl (hlast.mpr hz)
            omega
          exact absurd (h0.1 hj) (not_le.mpr hlt)
        · exact absurd h0.2 (not_le.mpr hgt)
    · rw [if_neg hbad]
      simp only [Bool.or_eq_true, Bool.and_eq_true, Bool.not_eq_eq_eq_not,
        Bool.not_true, decide_eq_false_iff_not, decide_eq_true_eq, not_or,
        not_and] at hbad
      obtain ⟨hminok, hmaxok⟩ := hbad
      rw [ih (i + 1) total (by simp only [List.length_cons] at htot ⊢; omega)]
      constructor
      · intro h j sc' hj
        cases j with
        | zero =>
          simp only [List.get?_cons_zero, Option.some.injEq] at hj
          subst hj
          refine ⟨fun hlt => ?_, not_lt.mp hmaxok⟩
          simp only [List.length_cons] at hlt
          have hne : ¬(i = total - 1) := fun hl => by
            have := hlast.mp hl
            omega
          exact not_lt.mp (hminok hne)
        | succ k =>
          simp only [List.get?_cons_succ] at hj
          have := h k sc' hj
          simp only [List.length_cons]
          exact ⟨fun hlt => this.1 (by omega), this.2⟩
      · intro h j sc' hj
        have := h (j + 1) sc' (by simpa using hj)
        simp only [List.length_cons] at this
        exact ⟨fun hlt => this.1 (by omega), this.2⟩

theorem validate_scenes_eq_go (scenes : List Scene) (fps_num fps_den : ℕ)
    (hov : fps_num * 10 + fps_den / 2 < 2 ^ 32) :
    validate_scenes scenes fps_num fps_den =
      validateScenesGo ((fps_num + fps_den / 2) / fps_den)
        (min ((fps_num * 10 + fps_den / 2) / fps_den) 300)
        scenes.length 0 scenes := by
  unfold validate_scenes
  rw [Nat.mod_eq_of_lt (by omega : fps_num + fps_den / 2 < 2 ^ 32),
    Nat.mod_eq_of_lt (by omega : fps_num * 10 < 2 ^ 32),
    Nat.mod_eq_of_lt (by omega : fps_num * 10 + fps_den / 2 < 2 ^ 32)]

/-- C5: `validate_scenes` succeeds iff every scene except the last has
length at least `min_len` and every scene has length at most `max_len`,
with `min_len = (fps_num + fps_den/2) / fps_den` and
`max_len = min ((fps_num*10 + fps_den/2) / fps_den) 300` in integer
arithmetic (stated under `fps_den > 0` and no u32 overflow); in particular
a non-terminal scene of length `min_len - 1` and any scene of length
`max_len + 1` are rejected, while a list whose non-terminal scene has
length exactly `min_len` and whose last scene has length exactly `max_len`
is accepted. -/
theorem C5_validate_scenes :
    ∀ (scenes : List Scene) (fps_num fps_den : ℕ),
      0 < fps_den → fps_num * 10 + fps_den / 2 < 2 ^ 32 →
      (validate_scenes scenes fps_num fps_den = true ↔
        ∀ (j : ℕ) (sc : Scene), scenes.get? j = some sc →
          (j + 1 < scenes.length →
            (fps_num + fps_den / 2) / fps_den ≤ sc.e_frame - sc.s_frame) ∧
          sc.e_frame - sc.s_frame ≤ min ((fps_num * 10 + fps_den / 2) / fps_den) 300) ∧
      (∀ (j : ℕ) (sc : Scene), scenes.get? j = some sc → j + 1 < scenes.length →
        0 < (fps_num + fps_den / 2) / fps_den →
        sc.e_frame - sc.s_frame = (fps_num + fps_den / 2) / fps_den - 1 →
        validate_scenes scenes fps_num fps_den = false) ∧
      (∀ (j : ℕ) (sc : Scene), scenes.get? j = some sc →
        sc.e_frame - sc.s_frame = min ((fps_num * 10 + fps_den / 2) / fps_den) 300 + 1 →
        validate_scenes scenes fps_num fps_den = false) ∧
      ((fps_num + fps_den / 2) / fps_den ≤ min ((fps_num * 10 + fps_den / 2) / fps_den) 300 →
        validate_scenes
          [⟨0, (fps_num + fps_den / 2) / fps_den⟩,
           ⟨(fps_num + fps_den / 2) / fps_den,
            (fps_num + fps_den / 2) / fps_den +
              min ((fps_num * 10 + fps_den / 2) / fps_den) 300⟩]
          fps_num fps_den = true) := by
  intro scenes fps_num fps_den hden hov
  have hiff : validate_scenes scenes fps_num fps_den = true ↔
      ∀ (j : ℕ) (sc : Scene), scenes.get? j = some sc →
        (j + 1 < scenes.length →
          (fps_num + fps_den / 2) / fps_den ≤ sc.e_frame - sc.s_frame) ∧
        sc.e_frame - sc.s_frame ≤ min ((fps_num * 10 + fps_den / 2) / fps_den) 300 := by
    rw [validate_scenes_eq_go scenes fps_num fps_den hov]
    exact validateScenesGo_iff _ _ scenes 0 scenes.length (by omega)
  refine ⟨hiff, ?_, ?_, ?_⟩
  · intro j sc hj hlt hminpos hlen
    cases hv : validate_scenes scenes fps_num fps_den with
    | false => rfl
    | true =>
      have := (hiff.mp hv j sc hj).1 hlt
      omega
  · intro j sc hj hlen
    cases hv : validate_scenes scenes fps_num fps_den with
    | false => rfl
    | true =>
      have := (hiff.mp hv j sc hj).2
      omega
  · intro hle
    rw [validate_scenes_eq_go _ fps_num fps_den hov,
      validateScenesGo_iff _ _ _ 0 _ (by simp)]
    intro j sc hj
    match j, hj with
    | 0, hj =>
      simp only [List.get?_cons_zero, Option.some.injEq] at hj
      subst hj
      simp only [List.length_cons, List.length_nil]
      exact ⟨fun _ => by simp, by simp [hle]⟩
    | 1, hj =>
      simp only [List.get?_cons_succ, List.get?_cons_zero, Option.some.injEq] at hj
      subst hj
      simp only [List.length_cons, List.length_nil]
      refine ⟨fun h => absurd h (by omega), ?_⟩
      simp

/-- Witness for C5 at 24 fps (`min_len = 24`, `max_len = 240`): the
two-scene list whose non-terminal scene has length exactly `min_len` and
whose last scene has length exactly `max_len` is accepted. -/
theorem C5_witness :
    validate_scenes [⟨0, 24⟩, ⟨24, 264⟩] 24 1 = true :=
  (C5_validate_scenes [⟨0, 24⟩, ⟨24, 264⟩] 24 1 (by decide)
    (by decide)).2.2.2 (by decide)

/-- C8 (amended): `natural_cubic` and `akima` return no value whenever the
`x` inputs are not strictly increasing or the query point lies outside
`[x_first, x_last]`; `lerp` returns no value exactly when `x[1] ≤ x[0]` and
`pchip` exactly when its `x` inputs are not strictly increasing — neither
`lerp` nor `pchip` performs a domain check on `xi`, so both extrapolate
outside their point range (see the counterexample). -/
theorem C8_interpolator_guards :
    (∀ x0 x1 y0 y1 xi : ℚ, lerp x0 x1 y0 y1 xi = none ↔ x1 ≤ x0) ∧
    (∀ (rsqrt : ℚ → ℚ) (x0 x1 x2 x3 y0 y1 y2 y3 xi : ℚ),
      pchip rsqrt x0 x1 x2 x3 y0 y1 y2 y3 xi = none ↔
        (x1 ≤ x0 ∨ x2 ≤ x1 ∨ x3 ≤ x2)) ∧
    (∀ (x y : List ℚ) (xi : ℚ),
      xi < ncX x 0 ∨ ncX x (x.length - 1) < xi → natural_cubic x y xi = none) ∧
    (∀ (x y : List ℚ) (xi : ℚ) (i : ℕ),
      i + 1 < x.length → ncX x (i + 1) ≤ ncX x i → natural_cubic x y xi = none) ∧
    (∀ x0 x1 x2 x3 x4 y0 y1 y2 y3 y4 xi : ℚ,
      akima x0 x1 x2 x3 x4 y0 y1 y2 y3 y4 xi = none ↔
        ((x1 ≤ x0 ∨ x2 ≤ x1 ∨ x3 ≤ x2 ∨ x4 ≤ x3) ∨ (xi < x0 ∨ x4 < xi))) := by
  refine ⟨?_, ?_, ?_, ?_, ?_⟩
  · intro x0 x1 y0 y1 xi
    unfold lerp
    by_cases h : x1 ≤ x0 <;> simp [h]
  · intro rsqrt x0 x1 x2 x3 y0 y1 y2 y3 xi
    unfold pchip
    by_cases h : x1 ≤ x0 ∨ x2 ≤ x1 ∨ x3 ≤ x2 <;> simp [h]
  · intro x y xi hout
    unfold natural_cubic
    rw [if_pos]
    rcases hout with h | h
    · exact Or.inr (Or.inr (Or.inl h))
    · exact Or.inr (Or.inr (Or.inr h))
  · intro x y xi i hi hle
    unfold natural_cubic
    by_cases hg : x.length < 3 ∨ x.length ≠ y.length ∨ xi < ncX x 0 ∨
        xi > ncX x (x.length - 1)
    · rw [if_pos hg]
    · rw [if_neg hg, if_pos]
      rw [List.any_eq_true]
      refine ⟨ncH x i, List.mem_map.mpr ⟨i, List.mem_range.mpr (by omega), rfl⟩, ?_⟩
      rw [decide_eq_true_eq]
      unfold ncH
      linarith
  · intro x0 x1 x2 x3 x4 y0 y1 y2 y3 y4 xi
    unfold akima
    by_cases h1 : x1 ≤ x0 ∨ x2 ≤ x1 ∨ x3 ≤ x2 ∨ x4 ≤ x3
    · simp [h1]
    · by_cases h2 : xi < x0 ∨ xi > x4
      · simp only [if_neg h1, if_pos h2]
        simpa using Or.inr h2
      · simp only [if_neg h1, if_neg h2]
        rw [not_or] at h2
        simp [h1, h2.1, h2.2]

/-- Counterexample for C8 as frozen: `lerp` with `x = [0, 1]` evaluated at
`xi = 5` (outside `[0, 1]`) returns a value (5, extrapolated), and `pchip`
with strictly increasing `x = [0, 1, 2, 3]` evaluated at `xi = 10`
(outside `[0, 3]`) also returns a value — neither is "no value". -/
theorem C8_counterexample :
    lerp 0 1 0 1 5 = some 5 ∧ ¬((0 : ℚ) ≤ 5 ∧ (5 : ℚ) ≤ 1) ∧
    pchip (fun q => q) 0 1 2 3 0 0 0 0 10 = some 0 ∧
    ¬((0 : ℚ) ≤ 10 ∧ (10 : ℚ) ≤ 3) := by
  refine ⟨by decide, by decide, by decide, by decide⟩

/-- Witness for C8 (amended): concrete guard instances for the four
interpolators. -/
theorem C8_witness :
    natural_cubic [0, 1, 2] [0, 1, 2] 10 = none ∧
    natural_cubic [0, 5, 3, 7] [0, 1, 2, 3] 4 = none ∧
    lerp 5 3 0 1 4 = none ∧
    akima 0 1 2 3 4 0 1 2 3 4 10 = none :=
  ⟨C8_interpolator_guards.2.2.1 [0, 1, 2] [0, 1, 2] 10 (Or.inr (by decide)),
   C8_interpolator_guards.2.2.2.1 [0, 5, 3, 7] [0, 1, 2, 3] 4 1 (by decide)
     (by decide),
   (C8_interpolator_guards.1 5 3 0 1 4).mpr (by decide),
   (C8_interpolator_guards.2.2.2.2 0 1 2 3 4 0 1 2 3 4 10).mpr
     (Or.inr (Or.inr (by decide)))⟩

theorem stripP_eq_some {metric_mode : String} {ps : List Char}
    (htl : metric_mode.toList = 'p' :: ps) : stripP metric_mode = some ps := by
  unfold stripP
  rw [htl]
  rfl

theorem stripP_eq_none {metric_mode : String}
    (hhd : metric_mode.toList.head? ≠ some 'p') : stripP metric_mode = none := by
  unfold stripP
  cases htl : metric_mode.toList with
  | nil => rfl
  | cons c rest =>
    rw [htl] at hhd
    split
    · rename_i heq
      exact absurd (congrArg List.head? heq) hhd
    · rfl

theorem measure_mode_ne_mean {metric_mode : String} {ps : List Char}
    (htl : metric_mode.toList = 'p' :: ps) : metric_mode ≠ "mean" := by
  intro h
  subst h
  have h1 := congrArg List.head? htl
  rw [show ('p' :: ps).head? = some 'p' from rfl] at h1
  exact absurd h1 (by decide)

theorem measure_result_p (ubt : Bool) (metric_mode : String) (scores : List ℚ)
    (ps : List Char) (htl : metric_mode.toList = 'p' :: ps) :
    measure_result false ubt metric_mode scores =
      ((if ubt then sortDesc scores else sortAsc scores).take
        (cutoff_idx ((parse_f64 ps).getD (.finite 15)) scores.length)).sum /
      ((cutoff_idx ((parse_f64 ps).getD (.finite 15)) scores.length : ℕ) : ℚ) := by
  unfold measure_result
  rw [if_neg (by simp), if_neg (measure_mode_ne_mean htl), stripP_eq_some htl]

/-- C9 (amended): in the non-CVVDP path of `measure_quality`, metric mode
`"mean"` reduces to the arithmetic mean; `"p<N>"` whose suffix parses as a
finite `f64` (any form `f64::from_str` accepts, exponent notation
included) sorts worst-first (ascending for higher-is-better, descending
for Butteraugli), takes the first `min(ceil(len·N/100), len)` scores and
returns their mean; a mode that neither equals `"mean"` nor starts with
`'p'` reduces to the mean; and a `'p'`-prefixed mode whose suffix fails to
parse as an `f64` uses the percentile reduction with the default `N = 15`
(`unwrap_or(15.0)`), not the mean. -/
theorem C9_reduction :
    (∀ (ubt : Bool) (scores : List ℚ),
      measure_result false ubt "mean" scores = listMean scores) ∧
    (∀ (ubt : Bool) (metric_mode : String) (scores : List ℚ) (ps : List Char)
      (N : ℚ), metric_mode.toList = 'p' :: ps → parse_f64 ps = some (.finite N) →
      measure_result false ubt metric_mode scores =
        ((if ubt then sortDesc scores else sortAsc scores).take
          (min (Int.toNat ⌈(scores.length : ℚ) * N / 100⌉) scores.length)).sum /
        ((min (Int.toNat ⌈(scores.length : ℚ) * N / 100⌉) scores.length : ℕ) : ℚ)) ∧
    (∀ (ubt : Bool) (metric_mode : String) (scores : List ℚ),
      metric_mode ≠ "mean" → metric_mode.toList.head? ≠ some 'p' →
      measure_result false ubt metric_mode scores = listMean scores) ∧
    (∀ (ubt : Bool) (metric_mode : String) (scores : List ℚ) (ps : List Char),
      metric_mode.toList = 'p' :: ps → parse_f64 ps = none →
      measure_result false ubt metric_mode scores =
        ((if ubt then sortDesc scores else sortAsc scores).take
          (min (Int.toNat ⌈(scores.length : ℚ) * 15 / 100⌉) scores.length)).sum /
        ((min (Int.toNat ⌈(scores.length : ℚ) * 15 / 100⌉) scores.length : ℕ) : ℚ)) := by
  refine ⟨?_, ?_, ?_, ?_⟩
  · intro ubt scores
    simp [measure_result]
  · intro ubt metric_mode scores ps N htl hps
    rw [measure_result_p ubt metric_mode scores ps htl, hps]
    rfl
  · intro ubt metric_mode scores hm hhd
    unfold measure_result
    rw [if_neg (by simp), if_neg hm, stripP_eq_none hhd]
  · intro ubt metric_mode scores ps htl hps
    rw [measure_result_p ubt metric_mode scores ps htl, hps]
    rfl

/-- Counterexample for C9 as frozen: the metric mode `"px"` is
`'p'`-prefixed with a suffix that fails to parse as an `f64`; the source
reduces it with the default percentile 15 (giving `0` on scores
`[0, 100]`), not the arithmetic mean (`50`). -/
theorem C9_counterexample :
    measure_result false false "px" [0, 100] = 0 ∧
    listMean [0, 100] = 50 ∧ (0 : ℚ) ≠ 50 := by
  refine ⟨by decide, by decide, by decide⟩

/-- Witness for C9 (amended): concrete instances of the four reduction
arms, including an exponent-notation percentile `"p1e2"` whose suffix
parses to the finite value 100 (so both scores of `[0, 100]` are kept and
the result is their mean 50). -/
theorem C9_witness :
    measure_result false false "mean" [0, 100] = listMean [0, 100] ∧
    measure_result false false "p50" [0, 10, 100] =
      ((sortAsc [0, 10, 100]).take 2).sum / ((2 : ℕ) : ℚ) ∧
    measure_result false false "p1e2" [0, 100] = 50 ∧
    measure_result false false "median" [0, 100] = listMean [0, 100] :=
  ⟨C9_reduction.1 false [0, 100],
   C9_reduction.2.1 false "p50" [0, 10, 100] ['5', '0'] 50 (by decide)
     (by decide),
   (C9_reduction.2.1 false "p1e2" [0, 100] ['1', 'e', '2'] 100 (by decide)
     (by decide)).trans (by decide),
   C9_reduction.2.2.1 false "median" [0, 100] (by decide) (by decide)⟩

theorem sortProbes_length (probes : List Probe) :
    (sortProbes probes).length = probes.length :=
  List.length_insertionSort _ probes

theorem interpolate_crf_some_round {rsqrt : ℚ → ℚ} {probes : List Probe}
    {target : ℚ} {round : ℕ} {v : ℚ}
    (h : interpolate_crf rsqrt probes target round = some v) :
    ∃ w, v = round_crf w := by
  simp only [interpolate_crf] at h
  rw [Option.map_eq_some'] at h
  obtain ⟨a, _, ha⟩ := h
  exact ⟨a, ha.symm⟩

/-- C4: the candidate CRF of rounds 1, 2 and every round above 6 is the
0.25-snapped midpoint of the current window, clamped into it; rounds 3–6
interpolate over the probes sorted by score ascending (round 3: `lerp` on
the 2 lowest-score probes when `n ≥ 2`; round 4: `natural_cubic` on all
when `n ≥ 3`; round 5: `pchip` on the 4 lowest when `n ≥ 4`; round 6:
`akima` on the 5 lowest when `n ≥ 5`), snapping any interpolated value with
`round_crf` and falling back to the snapped midpoint when the interpolator
returns no value; and every candidate whatsoever is of the snapped-and-
clamped form `rclamp (round_crf v) smin smax`. -/
theorem C4_candidate_selection :
    (∀ (rsqrt : ℚ → ℚ) (probes : List Probe) (target : ℚ) (r : ℕ)
      (smin smax : ℚ), r ≤ 2 ∨ 6 < r →
      tq_step_crf rsqrt probes target r smin smax =
        rclamp (round_crf (fmidpoint smin smax)) smin smax) ∧
    (∀ (rsqrt : ℚ → ℚ) (probes : List Probe) (target : ℚ) (smin smax : ℚ),
      2 ≤ probes.length →
      tq_step_crf rsqrt probes target 3 smin smax =
        rclamp (((lerp (ncX (probe_x probes) 0) (ncX (probe_x probes) 1)
            (ncX (probe_y probes) 0) (ncX (probe_y probes) 1) target).map
            round_crf).getD (round_crf (fmidpoint smin smax))) smin smax) ∧
    (∀ (rsqrt : ℚ → ℚ) (probes : List Probe) (target : ℚ) (smin smax : ℚ),
      3 ≤ probes.length →
      tq_step_crf rsqrt probes target 4 smin smax =
        rclamp (((natural_cubic (probe_x probes) (probe_y probes) target).map
            round_crf).getD (round_crf (fmidpoint smin smax))) smin smax) ∧
    (∀ (rsqrt : ℚ → ℚ) (probes : List Probe) (target : ℚ) (smin smax : ℚ),
      4 ≤ probes.length →
      tq_step_crf rsqrt probes target 5 smin smax =
        rclamp (((pchip rsqrt (ncX (probe_x probes) 0) (ncX (probe_x probes) 1)
            (ncX (probe_x probes) 2) (ncX (probe_x probes) 3)
            (ncX (probe_y probes) 0) (ncX (probe_y probes) 1)
            (ncX (probe_y probes) 2) (ncX (probe_y probes) 3) target).map
            round_crf).getD (round_crf (fmidpoint smin smax))) smin smax) ∧
    (∀ (rsqrt : ℚ → ℚ) (probes : List Probe) (target : ℚ) (smin smax : ℚ),
      5 ≤ probes.length →
      tq_step_crf rsqrt probes target 6 smin smax =
        rclamp (((akima (ncX (probe_x probes) 0) (ncX (probe_x probes) 1)
            (ncX (probe_x probes) 2) (ncX (probe_x probes) 3)
            (ncX (probe_x probes) 4)
            (ncX (probe_y probes) 0) (ncX (probe_y probes) 1)
            (ncX (probe_y probes) 2) (ncX (probe_y probes) 3)
            (ncX (probe_y probes) 4) target).map
            round_crf).getD (round_crf (fmidpoint smin smax))) smin smax) ∧
    (∀ (rsqrt : ℚ → ℚ) (probes : List Probe) (target : ℚ) (r : ℕ)
      (smin smax : ℚ), 3 ≤ r → r ≤ 6 →
      interpolate_crf rsqrt probes target r = none →
      tq_step_crf rsqrt probes target r smin smax =
        rclamp (round_crf (fmidpoint smin smax)) smin smax) ∧
    (∀ (rsqrt : ℚ → ℚ) (probes : List Probe) (target : ℚ) (r : ℕ)
      (smin smax : ℚ), ∃ v,
      tq_step_crf rsqrt probes target r smin smax =
        rclamp (round_crf v) smin smax) := by
  refine ⟨?_, ?_, ?_, ?_, ?_, ?_, ?_⟩
  · intro rsqrt probes target r smin smax hr
    unfold tq_step_crf
    rw [if_pos hr]
    rfl
  · intro rsqrt probes target smin smax hn
    unfold tq_step_crf
    rw [if_neg (by norm_num)]
    simp only [interpolate_crf]
    rw [if_pos ⟨by trivial, by rw [sortProbes_length]; exact hn⟩]
    rfl
  · intro rsqrt probes target smin smax hn
    unfold tq_step_crf
    rw [if_neg (by norm_num)]
    simp only [interpolate_crf]
    rw [if_neg (by norm_num), if_pos ⟨by trivial, by rw [sortProbes_length]; exact hn⟩]
    rfl
  · intro rsqrt probes target smin smax hn
    unfold tq_step_crf
    rw [if_neg (by norm_num)]
    simp only [interpolate_crf]
    rw [if_neg (by norm_num), if_neg (by norm_num),
      if_pos ⟨by trivial, by rw [sortProbes_length]; exact hn⟩]
    rfl
  · intro rsqrt probes target smin smax hn
    unfold tq_step_crf
    rw [if_neg (by norm_num)]
    simp only [interpolate_crf]
    rw [if_neg (by norm_num), if_neg (by norm_num), if_neg (by norm_num),
      if_pos ⟨by trivial, by rw [sortProbes_length]; exact hn⟩]
    rfl
  · intro rsqrt probes target r smin smax h3 h6 hnone
    unfold tq_step_crf
    rw [if_neg (by omega), hnone]
    rfl
  · intro rsqrt probes target r smin smax
    by_cases hr : r ≤ 2 ∨ 6 < r
    · refine ⟨fmidpoint smin smax, ?_⟩
      unfold tq_step_crf
      rw [if_pos hr]
      rfl
    · cases hint : interpolate_crf rsqrt probes target r with
      | none =>
        refine ⟨fmidpoint smin smax, ?_⟩
        unfold tq_step_crf
        rw [if_neg hr, hint]
        rfl
      | some v =>
        obtain ⟨w, hw⟩ := interpolate_crf_some_round hint
        refine ⟨w, ?_⟩
        unfold tq_step_crf
        rw [if_neg hr, hint, Option.getD_some, hw]

/-- Witness for C4 at concrete states: a bisection round, an
interpolating round-3 state (probes from spec scenario S3, giving
candidate 20.75), and a fallback round-5 state whose PCHIP guard fails
(only 4 probes needed but the interpolation returns a value snapped to
0.25 anyway — here exercised through the snap/clamp arm). -/
theorem C4_witness :
    tq_step_crf (fun q => q) [] 75 1 12 44 =
      rclamp (round_crf (fmidpoint 12 44)) 12 44 ∧
    tq_step_crf (fun q => q) [⟨28, 731/10⟩, ⟨20, 376/5⟩] 75 3 12 44 = 83/4 ∧
    tq_step_crf (fun q => q) [⟨28, 731/10⟩, ⟨20, 376/5⟩] 75 4 12 44 =
      rclamp (round_crf (fmidpoint 12 44)) 12 44 :=
  ⟨C4_candidate_selection.1 (fun q => q) [] 75 1 12 44 (Or.inl (by norm_num)),
   (C4_candidate_selection.2.1 (fun q => q) [⟨28, 731/10⟩, ⟨20, 376/5⟩] 75 12 44
     (by decide)).trans (by decide),
   C4_candidate_selection.2.2.2.2.2.1 (fun q => q)
     [⟨28, 731/10⟩, ⟨20, 376/5⟩] 75 4 12 44 (by norm_num) (by norm_num)
     (by decide)⟩

end Xav
